import Mathlib

/-!
Verification of the GitHub API access layer of IroncladSalvage/defibrillator
(`src/defibrillator/github_api.py`) against its specification.

The Python module is shallowly embedded: pure helpers become Lean functions on
`List Char` / `String`, the stateful retry loop of `GitHubClient.request`
becomes a fuel-indexed recursion over an explicit transport oracle, float
arithmetic is modelled with `ℚ`, and Python exceptions become `Except` /
explicit error constructors.  `random.uniform(0, 0.25)` and `time.time()` are
modelled as explicit parameters (`jitter`, `now`).
-/

namespace Defib

/-! ### Python string primitives, re-implemented structurally.

Lean core string functions (`String.toLower`, `String.splitOn`, …) do not
reduce inside the kernel, so the Python string operations used by
`github_api.py` are re-implemented here on `List Char` by structural
recursion.  Only ASCII behaviour matters: every string these functions are
applied to in the source (header names, header values, JSON `message`
fields, URL fragments) is ASCII in the scenarios the spec describes. -/

/-- Python `str.lower` on one ASCII character. -/
def lowerChar (c : Char) : Char :=
  if 'A' ≤ c ∧ c ≤ 'Z' then Char.ofNat (c.toNat + 32) else c

/-- Python `str.lower` (ASCII). -/
def lowerStr (s : String) : String :=
  String.mk (s.data.map lowerChar)

/-- Does `pat` occur at the head of `l`? (helper for substring search). -/
def charsBeginWith : List Char → List Char → Bool
  | [], _ => true
  | _ :: _, [] => false
  | p :: ps, c :: cs => p == c && charsBeginWith ps cs

/-- Python `pat in s` substring test, on char lists. -/
def charsContains (pat : List Char) : List Char → Bool
  | [] => charsBeginWith pat []
  | c :: cs => charsBeginWith pat (c :: cs) || charsContains pat cs

/-- Python `pat in s` substring test on strings. -/
def strContains (s pat : String) : Bool :=
  charsContains pat.data s.data

/-- Python whitespace (the class `\s` of `re` / `str.strip`):
space, tab, newline, carriage return, vertical tab, form feed. -/
def isPySpace (c : Char) : Bool :=
  c == ' ' || c == '\t' || c == '\n' || c == '\r' ||
    c == Char.ofNat 11 || c == Char.ofNat 12

/-- Drop leading Python whitespace. -/
def dropPySpace (l : List Char) : List Char :=
  l.dropWhile isPySpace

/-- Python `str.strip()`. -/
def pyStrip (s : String) : String :=
  String.mk ((dropPySpace ((dropPySpace s.data).reverse)).reverse)

/-- Are all characters decimal digits? -/
def allDigits (l : List Char) : Bool :=
  l.all (·.isDigit)

/-- Numeric value of a digit string. -/
def digitsVal (l : List Char) : ℕ :=
  l.foldl (fun n c => 10 * n + (c.toNat - 48)) 0

/-- Split a char list on a separator character (Python `str.split(sep)`
for a one-character separator, which never drops empty parts). -/
def splitOnChar (sep : Char) : List Char → List (List Char)
  | [] => [[]]
  | c :: cs =>
    let r := splitOnChar sep cs
    if c == sep then [] :: r
    else
      match r with
      | [] => [[c]]
      | h :: t => (c :: h) :: t

/-- Unsigned decimal float literal: digits, optionally with one decimal
point, at least one digit overall (`"5"`, `"5."`, `".5"`, `"5.25"`). -/
def parseUFloat (l : List Char) : Option ℚ :=
  match splitOnChar '.' l with
  | [a] => if a ≠ [] ∧ allDigits a then some (digitsVal a) else none
  | [a, b] =>
    if (a ≠ [] ∨ b ≠ []) ∧ allDigits a ∧ allDigits b then
      some ((digitsVal a : ℚ) + (digitsVal b : ℚ) / 10 ^ b.length)
    else none
  | _ => none

/-- Python `float(s)` for the decimal forms the GitHub headers use;
returns `none` where Python raises `ValueError`.  The exotic inputs
Python additionally accepts (`"inf"`, `"nan"`, exponents, underscores)
never occur in the header values this module parses. -/
def pyFloat? (s : String) : Option ℚ :=
  match (pyStrip s).data with
  | '-' :: rest => (parseUFloat rest).map (fun q => -q)
  | '+' :: rest => parseUFloat rest
  | l => parseUFloat l

/-- Python `int(s)` for decimal forms; `none` where Python raises
`ValueError`. -/
def pyInt? (s : String) : Option ℤ :=
  match (pyStrip s).data with
  | '-' :: rest =>
    if rest ≠ [] ∧ allDigits rest then some (-(digitsVal rest : ℤ)) else none
  | '+' :: rest =>
    if rest ≠ [] ∧ allDigits rest then some (digitsVal rest : ℤ) else none
  | l => if l ≠ [] ∧ allDigits l then some (digitsVal l : ℤ) else none

/-! ### Headers

`requests` exposes response headers as a case-insensitive mapping; we model
a header collection as an association list and `headers.get(name)` as a
case-insensitive first lookup. -/

/-- One response/request header collection. -/
abbrev Headers := List (String × String)

/-- Embedding of `headers.get(name)` on a `requests` header mapping: case-insensitive lookup. -/
def headerGet (hs : Headers) (name : String) : Option String :=
  (hs.find? (fun p => lowerStr p.1 == lowerStr name)).map (·.2)

/-! ### The JSON body of a response, as far as `_should_retry` inspects it.

`_should_retry` calls `response.json()` and then
`body.get("message", "").lower()`.  The constructors below enumerate the
outcomes of that expression chain on an arbitrary response body. -/

/-- Outcome of `response.json()` followed by `.get("message", "")`. -/
inductive BodyJson where
  /-- the body is not valid JSON: `response.json()` raises `JSONDecodeError` -/
  | malformed
  /-- valid JSON whose top level is not an object: `.get` raises `AttributeError` -/
  | nonObj
  /-- a JSON object with no `message` field: `.get` yields `""` -/
  | objNoMsg
  /-- a JSON object whose `message` field is the string `s` -/
  | objMsg (s : String)
  /-- a JSON object whose `message` field is not a string:
  `.lower()` raises `AttributeError` -/
  | objMsgNonStr
deriving DecidableEq

/-- An HTTP response as `GitHubClient` observes it: status code, headers,
body text, and the parse of the body that `response.json()` would return. -/
structure HttpResponse where
  status : ℕ
  headers : Headers
  body : String
  jsonBody : BodyJson
deriving DecidableEq

/-! ### `_should_retry` (github_api.py lines 172–193) -/

/-- Embedding of `GitHubClient._should_retry`. -/
def shouldRetry (r : HttpResponse) : Bool :=
  if r.status = 429 then true
  else if 500 ≤ r.status then true
  else if r.status = 403 then
    if headerGet r.headers "X-RateLimit-Remaining" = some "0" then true
    else
      match r.jsonBody with
      | .objMsg s =>
        let message := lowerStr s
        strContains message "rate limit" || strContains message "secondary rate limit"
      | .objNoMsg =>
        let message := lowerStr ""
        strContains message "rate limit" || strContains message "secondary rate limit"
      | .malformed => false
      | .nonObj => false
      | .objMsgNonStr => false
  else false

/-- The retry predicate as the spec words it: 429 retries, any 5xx
retries, and 403 retries exactly when the rate-limit-remaining header
reads "0" or the JSON body's message field contains "rate limit" or
"secondary rate limit" as a case-insensitive substring. -/
def retrySpecP (r : HttpResponse) : Prop :=
  r.status = 429 ∨ 500 ≤ r.status ∨
    (r.status = 403 ∧
      (headerGet r.headers "X-RateLimit-Remaining" = some "0" ∨
        ∃ s, r.jsonBody = .objMsg s ∧
          (strContains (lowerStr s) "rate limit" = true ∨
            strContains (lowerStr s) "secondary rate limit" = true)))

/-- C1: for every HTTP response, the retry decision is exactly: 429
retries; any status ≥ 500 retries; 403 retries iff `X-RateLimit-Remaining`
reads "0" or the JSON message mentions "rate limit" / "secondary rate
limit" case-insensitively (malformed JSON matching nothing); every other
status is not retried. -/
theorem c1_retry_decision (r : HttpResponse) :
    shouldRetry r = true ↔ retrySpecP r := by
  unfold shouldRetry retrySpecP
  by_cases h429 : r.status = 429 <;> simp [h429]
  by_cases h5xx : 500 ≤ r.status <;> simp [h5xx]
  by_cases h403 : r.status = 403 <;> simp [h403]
  by_cases hrem : headerGet r.headers "X-RateLimit-Remaining" = some "0" <;>
    simp [hrem]
  cases hb : r.jsonBody <;>
    simp [hb, strContains, charsContains, charsBeginWith, lowerStr]

/-! ### `_calculate_retry_delay` (github_api.py lines 195–218)

`random.uniform(0, 0.25)` is modelled by an explicit `jitter` argument and
`time.time()` by an explicit `now` argument; floats are modelled by `ℚ`. -/

/-- Lines 216–218 of `_calculate_retry_delay`: exponential backoff with
jitter, clamped to the configured maximum (`random.uniform(0, 0.25)`
appears as the explicit `jitter` argument). -/
def backoffFallback (backoffBase backoffMax : ℚ) (attempt : ℕ)
    (jitter : ℚ) : ℚ :=
  min backoffMax (backoffBase * 2 ^ attempt) + jitter

/-- Lines 206–218 of `_calculate_retry_delay`: the rate-limit-reset wait,
falling back to exponential backoff.  Python's truthiness test
`if reset_time and remaining == "0":` becomes an explicit
non-empty-string test, and the `try`/`except ValueError` around
`int(reset_time)` becomes a `match` on the optional parse result. -/
def resetOrBackoff (backoffBase backoffMax : ℚ) (headers : Headers)
    (now : ℚ) (attempt : ℕ) (jitter : ℚ) : ℚ :=
  match headerGet headers "X-RateLimit-Reset",
      headerGet headers "X-RateLimit-Remaining" with
  | some resetTime, some remaining =>
    if resetTime ≠ "" ∧ remaining = "0" then
      match pyInt? resetTime with
      | some resetEpoch => min ((resetEpoch : ℚ) - now + 1) 300
      | none => backoffFallback backoffBase backoffMax attempt jitter
    else backoffFallback backoffBase backoffMax attempt jitter
  | _, _ => backoffFallback backoffBase backoffMax attempt jitter

/-- Embedding of `GitHubClient._calculate_retry_delay` (lines 195–218).
The leading `Retry-After` step (lines 199–204): Python's
`if retry_after:` truthiness becomes a non-empty-string test and the
`try`/`except ValueError` around `float(retry_after)` a `match`. -/
def calculateRetryDelay (backoffBase backoffMax : ℚ) (headers : Headers)
    (now : ℚ) (attempt : ℕ) (jitter : ℚ) : ℚ :=
  match headerGet headers "Retry-After" with
  | some retryAfter =>
    if retryAfter ≠ "" then
      match pyFloat? retryAfter with
      | some q => q
      | none => resetOrBackoff backoffBase backoffMax headers now attempt jitter
    else resetOrBackoff backoffBase backoffMax headers now attempt jitter
  | none => resetOrBackoff backoffBase backoffMax headers now attempt jitter

/-- The second and third backoff priority rules as the spec words them:
a present reset timestamp with remaining "0" gives `reset − now + 1`
clamped to 300; else exponential backoff with jitter. -/
def specResetOrBackoff (backoffBase backoffMax : ℚ) (headers : Headers)
    (now : ℚ) (attempt : ℕ) (jitter : ℚ) : ℚ :=
  match (headerGet headers "X-RateLimit-Reset").bind pyInt?,
      headerGet headers "X-RateLimit-Remaining" with
  | some resetEpoch, some remaining =>
    if remaining = "0" then min ((resetEpoch : ℚ) - now + 1) 300
    else min backoffMax (backoffBase * 2 ^ attempt) + jitter
  | _, _ => min backoffMax (backoffBase * 2 ^ attempt) + jitter

/-- The backoff computation as the spec words it, in priority order: a
parsing `Retry-After` header wins outright; otherwise the reset/backoff
rules apply. -/
def specRetryDelay (backoffBase backoffMax : ℚ) (headers : Headers)
    (now : ℚ) (attempt : ℕ) (jitter : ℚ) : ℚ :=
  match (headerGet headers "Retry-After").bind pyFloat? with
  | some q => q
  | none => specResetOrBackoff backoffBase backoffMax headers now attempt jitter

theorem pyFloat_empty : pyFloat? "" = none := by decide

theorem pyInt_empty : pyInt? "" = none := by decide

theorem resetOrBackoff_eq_spec (backoffBase backoffMax : ℚ)
    (headers : Headers) (now : ℚ) (attempt : ℕ) (jitter : ℚ) :
    resetOrBackoff backoffBase backoffMax headers now attempt jitter =
      specResetOrBackoff backoffBase backoffMax headers now attempt jitter := by
  unfold resetOrBackoff specResetOrBackoff backoffFallback
  cases hr : headerGet headers "X-RateLimit-Reset" with
  | none => simp
  | some r =>
    cases hrem : headerGet headers "X-RateLimit-Remaining" with
    | none => simp only [Option.some_bind]; cases hi : pyInt? r <;> simp
    | some rem =>
      by_cases hrem0 : rem = "0"
      · by_cases hr0 : r = ""
        · subst hr0; simp [pyInt_empty, hrem0]
        · simp only [Option.some_bind]
          cases hi : pyInt? r <;> simp [hi, hr0, hrem0]
      · simp only [Option.some_bind]
        cases hi : pyInt? r <;> simp [hi, hrem0]

/-- C4: the retry delay follows the claimed priority order (the source
computation coincides with the spec's priority-ordered computation), and
in particular `Retry-After: 5` yields exactly 5 even when rate-limit
headers are also present. -/
theorem c4_delay_priority :
    (∀ backoffBase backoffMax headers now attempt jitter,
      calculateRetryDelay backoffBase backoffMax headers now attempt jitter =
        specRetryDelay backoffBase backoffMax headers now attempt jitter) ∧
    calculateRetryDelay 1 60
      [("Retry-After", "5"), ("X-RateLimit-Remaining", "0"),
        ("X-RateLimit-Reset", "1000")] 0 0 0 = 5 := by
  constructor
  · intro backoffBase backoffMax headers now attempt jitter
    unfold calculateRetryDelay specRetryDelay
    cases hra : headerGet headers "Retry-After" with
    | none =>
      simpa using resetOrBackoff_eq_spec backoffBase backoffMax headers now attempt jitter
    | some s =>
      by_cases hs : s = ""
      · subst hs
        simpa [pyFloat_empty] using
          resetOrBackoff_eq_spec backoffBase backoffMax headers now attempt jitter
      · simp only [if_pos hs, Option.some_bind]
        cases hf : pyFloat? s with
        | some q => simp [hf]
        | none =>
          simpa [hf] using
            resetOrBackoff_eq_spec backoffBase backoffMax headers now attempt jitter
  · have h5 : calculateRetryDelay 1 60
        [("Retry-After", "5"), ("X-RateLimit-Remaining", "0"),
          ("X-RateLimit-Reset", "1000")] 0 0 0 = ((5 : ℕ) : ℚ) := rfl
    rw [h5]; norm_num

/-! ### Transport-failure backoff (github_api.py lines 319–326)

On `requests.RequestException` with attempts remaining, the code computes
`self.backoff_base_s * (2**attempt) + random.uniform(0, 0.25)` — note:
without the `min(self.backoff_max_s, ...)` clamp that the response-based
rule 3 (line 216) applies. -/

/-- Embedding of the transport-failure retry delay (line 321). -/
def transportRetryDelay (backoffBase : ℚ) (attempt : ℕ) (jitter : ℚ) : ℚ :=
  backoffBase * 2 ^ attempt + jitter

/-- C3 counterexample: with `backoff_base_s = 100`, `backoff_max_s = 60`
and attempt index 0 (zero jitter), the transport-failure delay the code
computes is 100, while the claim's formula `min(backoff_max_s,
backoff_base_s * 2^attempt)` gives 60: the pre-jitter delay exceeds the
configured maximum backoff, refuting the claim. -/
theorem c3_transport_delay_not_clamped :
    transportRetryDelay 100 0 0 = 100 ∧
    min (60 : ℚ) (100 * 2 ^ 0) + 0 = 60 ∧ (100 : ℚ) ≠ 60 :=
  ⟨by norm_num [transportRetryDelay], by norm_num, by norm_num⟩

/-- C3 amended: the transport-failure delay is
`backoff_base_s * 2^attempt` plus the jitter from `[0, 0.25)`, with no
clamp to `backoff_max_s`: the delay always lies in
`[base * 2^attempt, base * 2^attempt + 0.25)`. -/
theorem c3_transport_backoff (backoffBase : ℚ) (attempt : ℕ) (jitter : ℚ)
    (hj0 : 0 ≤ jitter) (hj1 : jitter < 1/4) :
    backoffBase * 2 ^ attempt ≤ transportRetryDelay backoffBase attempt jitter ∧
    transportRetryDelay backoffBase attempt jitter <
      backoffBase * 2 ^ attempt + 1/4 := by
  unfold transportRetryDelay
  constructor <;> linarith

theorem c3_transport_backoff_witness :
    (1 : ℚ) * 2 ^ 3 ≤ transportRetryDelay 1 3 (1/8) ∧
    transportRetryDelay 1 3 (1/8) < 1 * 2 ^ 3 + 1/4 :=
  c3_transport_backoff 1 3 (1/8) (by norm_num) (by norm_num)

/-! ### The disk cache (github_api.py lines 20–21, 45–54, 112–157)

Python `dict` state is modelled as an insertion-ordered association list
with last-writer-wins updates; `time.time()` is the explicit `now`. -/

/-- Embedding of the `CacheEntry` dataclass (lines 45–54). -/
structure CacheEntry where
  etag : String
  url : String
  statusCode : ℕ
  headers : Headers
  bodyText : String
  savedAtEpoch : ℚ
deriving DecidableEq

/-- The in-memory cache `self._cache`: an insertion-ordered mapping from
cache-key strings to entries. -/
abbrev CacheMap := List (String × CacheEntry)

/-- Embedding of `self._cache.get(key)`. -/
def cacheGet (m : CacheMap) (key : String) : Option CacheEntry :=
  (m.find? (fun p => p.1 == key)).map (·.2)

/-- Embedding of `self._cache[key] = entry`: overwrite in place or append. -/
def cacheInsert (m : CacheMap) (key : String) (e : CacheEntry) : CacheMap :=
  if m.any (fun p => p.1 == key) then
    m.map (fun p => if p.1 == key then (key, e) else p)
  else m ++ [(key, e)]

/-- The maximum entry age `CACHE_MAX_AGE_DAYS * 24 * 60 * 60` (lines 21, 125). -/
def cacheMaxAge : ℚ := 7 * 24 * 60 * 60

/-- The Python exceptions that can arise while deserializing the cache
file. -/
inductive PyExc where
  | attributeError
  | typeError
  | keyError
  | jsonDecodeError
deriving DecidableEq

/-- One value of the JSON map loaded from the cache file, as far as
`CacheEntry(**entry_data)` is concerned. -/
inductive RawEntry where
  /-- a JSON object whose keys are exactly the `CacheEntry` field names
  (the dataclass constructor accepts it; field values are not
  type-checked by the dataclass, and the age comparison below only needs
  `saved_at_epoch`, modelled as numeric) -/
  | good (e : CacheEntry)
  /-- anything `CacheEntry(**entry_data)` rejects — a non-mapping, or a
  mapping with missing, extra or renamed keys: raises `TypeError` -/
  | badShape
deriving DecidableEq

/-- The parse of the cache file's contents. -/
inductive RawJson where
  /-- not valid JSON: `json.load` raises `JSONDecodeError` -/
  | malformed
  /-- valid JSON whose top level is not an object (array, string,
  number, boolean or null): `raw.items()` raises `AttributeError` -/
  | nonObj
  /-- a JSON object: a mapping from keys to entry payloads -/
  | obj (entries : List (String × RawEntry))
deriving DecidableEq

/-- The `for key, entry_data in raw.items():` loop of `_load_cache`
(lines 127–130), accumulating into `self._cache`. -/
def loadEntries (now : ℚ) : List (String × RawEntry) → CacheMap →
    Except PyExc CacheMap
  | [], acc => .ok acc
  | (key, .good e) :: rest, acc =>
    if now - e.savedAtEpoch < cacheMaxAge then
      loadEntries now rest (cacheInsert acc key e)
    else loadEntries now rest acc
  | (_, .badShape) :: _, _ => .error .typeError

/-- Embedding of `GitHubClient._load_cache` (lines 112–132).
`fileContents = none` models a missing cache file.  The surrounding
`try`/`except (json.JSONDecodeError, TypeError, KeyError)` resets the
cache to `{}` for exactly those three exception kinds; any other
exception (notably `AttributeError` from `raw.items()` on a non-object
top level) propagates to the caller, which the `Except.error` result
records. -/
def loadCache (cacheEnabled : Bool) (fileContents : Option RawJson)
    (now : ℚ) : Except PyExc CacheMap :=
  if cacheEnabled = false then .ok []
  else
    match fileContents with
    | none => .ok []
    | some .malformed => .ok []
    | some .nonObj => .error .attributeError
    | some (.obj entries) =>
      match loadEntries now entries [] with
      | .ok m => .ok m
      | .error .typeError => .ok []
      | .error .keyError => .ok []
      | .error .jsonDecodeError => .ok []
      | .error e => .error e

/-! ### `_save_cache` serialization (github_api.py lines 134–153) -/

/-- A JSON value, as far as the serialized cache needs. -/
inductive JVal where
  | str (s : String)
  | num (q : ℚ)
  | obj (fields : List (String × JVal))

/-- The per-entry record `_save_cache` builds (lines 143–150): the keys,
in order, that the dumped JSON object for one entry carries. -/
def entryToJson (e : CacheEntry) : List (String × JVal) :=
  [("etag", .str e.etag),
   ("url", .str e.url),
   ("status_code", .num e.statusCode),
   ("headers", .obj (e.headers.map (fun p => (p.1, .str p.2)))),
   ("body_text", .str e.bodyText),
   ("saved_at_epoch", .num e.savedAtEpoch)]

/-- The whole `data` object `_save_cache` dumps: a JSON object mapping
each cache key to its serialized entry record. -/
def saveCacheData (m : CacheMap) : List (String × List (String × JVal)) :=
  m.map (fun p => (p.1, entryToJson p.2))

/-! #### C2 — load failures -/

/-- A sample cache entry used by concrete counterexamples/witnesses. -/
def sampleEntry : CacheEntry :=
  { etag := "W/\x22abc\x22", url := "https://api.github.com/repos/o/r",
    statusCode := 200, headers := [("ETag", "W/\x22abc\x22")],
    bodyText := "\x7b\x7d", savedAtEpoch := 0 }

/-- C2 fails on the code: a cache file holding valid JSON whose top level
is not an object (e.g. the array `[]`) makes `_load_cache` raise
`AttributeError` from `raw.items()` — `AttributeError` is not in the
`except (json.JSONDecodeError, TypeError, KeyError)` tuple — instead of
starting from an empty cache.  This theorem evaluates the embedded
loader at that failing input. -/
theorem c2_toplevel_array_raises :
    loadCache true (some .nonObj) 0 = .error .attributeError ∧
    loadCache true (some .malformed) 0 = .ok [] ∧
    loadCache true (some (.obj [("k", .badShape)])) 0 = .ok [] := by
  refine ⟨rfl, rfl, rfl⟩

/-! #### C7 — age-based expiry at load -/

theorem loadEntries_mem_young (now : ℚ) :
    ∀ (entries : List (String × RawEntry)) (acc m : CacheMap),
      loadEntries now entries acc = .ok m →
      (∀ p ∈ acc, now - p.2.savedAtEpoch < cacheMaxAge) →
      ∀ p ∈ m, now - p.2.savedAtEpoch < cacheMaxAge := by
  intro entries
  induction entries with
  | nil =>
    intro acc m hm hacc
    simp only [loadEntries, Except.ok.injEq] at hm
    exact hm ▸ hacc
  | cons hd tl ih =>
    intro acc m hm hacc
    obtain ⟨key, re⟩ := hd
    cases re with
    | badShape => simp [loadEntries] at hm
    | good e =>
      by_cases hyoung : now - e.savedAtEpoch < cacheMaxAge
      · simp only [loadEntries, if_pos hyoung] at hm
        refine ih _ m hm ?_
        intro p hp
        unfold cacheInsert at hp
        by_cases hmem : acc.any (fun q => q.1 == key) = true
        · simp only [if_pos hmem, List.mem_map] at hp
          obtain ⟨q, hq, hpq⟩ := hp
          by_cases hqk : q.1 == key
          · simp only [if_pos hqk] at hpq
            exact hpq ▸ hyoung
          · simp only [if_neg hqk] at hpq
            exact hpq ▸ hacc q hq
        · simp only [if_neg hmem, List.mem_append, List.mem_singleton] at hp
          rcases hp with hp | hp
          · exact hacc p hp
          · exact hp ▸ hyoung
      · simp only [loadEntries, if_neg hyoung] at hm
        exact ih _ m hm hacc

/-- C7: loading drops every entry whose age reaches the 7-day maximum.
(a) Every entry in a successfully loaded cache is younger than the
maximum age — so a lookup can never return a stale entry; and (b) a
cache file whose single entry is older than the maximum loads exactly
like a cache file holding an empty object: the result is the empty
cache, so every subsequent lookup misses. -/
theorem c7_stale_entries_dropped :
    (∀ (entries : List (String × RawEntry)) (now : ℚ) (m : CacheMap),
      loadCache true (some (.obj entries)) now = .ok m →
      ∀ p ∈ m, now - p.2.savedAtEpoch < cacheMaxAge) ∧
    (∀ (key : String) (e : CacheEntry) (now : ℚ),
      cacheMaxAge < now - e.savedAtEpoch →
      loadCache true (some (.obj [(key, .good e)])) now =
        loadCache true (some (.obj [])) now ∧
      loadCache true (some (.obj [(key, .good e)])) now = .ok []) := by
  constructor
  · intro entries now m hm
    rw [show loadCache true (some (.obj entries)) now =
        (match loadEntries now entries [] with
         | .ok m => .ok m
         | .error .typeError => .ok []
         | .error .keyError => .ok []
         | .error .jsonDecodeError => .ok []
         | .error e => .error e) from rfl] at hm
    cases hle : loadEntries now entries [] with
    | ok m' =>
      rw [hle] at hm
      cases hm
      exact loadEntries_mem_young now entries [] m hle (by simp)
    | error e => rw [hle] at hm; cases e <;> simp_all
  · intro key e now hold
    have hnot : ¬(now - e.savedAtEpoch < cacheMaxAge) := by linarith
    constructor <;>
      simp [loadCache, loadEntries, if_neg hnot]

theorem c7_stale_entries_dropped_witness :
    loadCache true (some (.obj [("k", .good sampleEntry)])) 604801 = .ok [] := by
  have h := (c7_stale_entries_dropped.2 "k" sampleEntry 604801
    (by norm_num [sampleEntry, cacheMaxAge])).2
  exact h

/-! #### C9 — shape of the persisted cache file -/

/-- C9 counterexample: the serialized record's timestamp field is named
`saved_at_epoch`, not `saved_at` as the claim states; the claimed field
list is not the persisted one. -/
theorem c9_field_name_counterexample :
    (saveCacheData [("k", sampleEntry)]).map Prod.fst = ["k"] ∧
    (entryToJson sampleEntry).map Prod.fst =
      ["etag", "url", "status_code", "headers", "body_text", "saved_at_epoch"] ∧
    (entryToJson sampleEntry).map Prod.fst ≠
      ["etag", "url", "status_code", "headers", "body_text", "saved_at"] := by
  refine ⟨rfl, rfl, by decide⟩

/-- C9 amended: the persisted cache file is always a JSON object mapping
cache-key strings to serialized `CacheEntry` records whose fields are
exactly `etag`, `url`, `status_code`, `headers`, `body_text` and
`saved_at_epoch`. -/
theorem c9_save_shape (m : CacheMap) :
    (saveCacheData m).map Prod.fst = m.map Prod.fst ∧
    ∀ p ∈ saveCacheData m,
      p.2.map Prod.fst =
        ["etag", "url", "status_code", "headers", "body_text",
          "saved_at_epoch"] := by
  constructor
  · simp [saveCacheData]
  · intro p hp
    unfold saveCacheData at hp
    simp only [List.mem_map] at hp
    obtain ⟨q, _, hq⟩ := hp
    rw [← hq]
    rfl

theorem c9_save_shape_witness :
    ∃ p, p ∈ saveCacheData [("k", sampleEntry)] ∧
      p.2.map Prod.fst =
        ["etag", "url", "status_code", "headers", "body_text",
          "saved_at_epoch"] :=
  ⟨("k", entryToJson sampleEntry), by simp [saveCacheData],
    (c9_save_shape [("k", sampleEntry)]).2 ("k", entryToJson sampleEntry)
      (by simp [saveCacheData])⟩

/-! ### The `request` retry loop (github_api.py lines 220–335)

The loop is embedded as a fuel-indexed recursion: `remaining` counts the
iterations `range(self.max_retries + 1)` still has, `attempt` is the loop
index, `issued` counts HTTP requests already sent.  The network is an
oracle `transport : ℕ → ReqOutcome` giving the outcome of the i-th issued
request; `time.sleep` has no observable effect and is not recorded.
Request-header construction (Accept, API version, User-Agent,
If-None-Match) is carried by the transport oracle and not modelled
further. -/

/-- The `auth` mode (`"auto" | "required" | "none"`). -/
inductive AuthMode where
  | auto
  | required
  | noauth
deriving DecidableEq

/-- Outcome of one `self._session.request(...)` call: a response, or a
`requests.RequestException` (connection error / timeout). -/
inductive ReqOutcome where
  | resp (r : HttpResponse)
  | exc
deriving DecidableEq

/-- Embedding of the `ResponseData` dataclass (lines 57–67). -/
structure ResponseData where
  url : String
  statusCode : ℕ
  headers : Headers
  text : String
deriving DecidableEq

/-- The errors `request` can raise. -/
inductive GhError where
  /-- the `GitHubAuthError` raise of line 248 -/
  | authError
  /-- the `GitHubHTTPError` raises of lines 312–317 / 329–334 -/
  | httpError (statusCode : ℕ) (url : String) (responseText : String)
      (headers : Headers)
  /-- the `GitHubError` raised on transport failure with retries exhausted
  (line 326) -/
  | transportError
  /-- the `GitHubError` raise at line 335 (unreachable for `max_retries ≥ 0`) -/
  | exhausted
deriving DecidableEq

/-- One cache write: `self._cache[key] = CacheEntry(...)` followed by
`self._save_cache()` (lines 290–298).  `respStatus` is the status of the
response the entry was built from. -/
structure WriteEvent where
  key : String
  entry : CacheEntry
  respStatus : ℕ
deriving DecidableEq

/-- Result of one `request()` call: how many HTTP requests were issued,
the returned data or raised error, the final in-memory cache, the cache
writes performed (each also rewrote the cache file), and whether the
returned data came from the 304/cache-hit branch. -/
structure ReqResult where
  requests : ℕ
  outcome : Except GhError ResponseData
  cache : CacheMap
  writes : List WriteEvent
  servedFromCache : Bool

/-- The per-call inputs of `request()` that the loop reads. -/
structure ReqCtx where
  url : String
  key : String
  /-- whether `method.upper() == "GET"` -/
  isGet : Bool
  useCache : Bool
  cacheEnabled : Bool
  expected : List ℕ
  maxRetries : ℕ
  /-- the `time.time()` value at the moment a cache entry is written -/
  now : ℚ

/-- The `for attempt in range(self.max_retries + 1):` loop
(lines 261–335). -/
def reqGo (ctx : ReqCtx) (transport : ℕ → ReqOutcome)
    (cachedEntry : Option CacheEntry) (cache : CacheMap) :
    (attempt remaining issued : ℕ) → Option HttpResponse → ReqResult
  | _, 0, issued, lastResponse =>
    -- lines 328–335: after the loop (unreachable while remaining ≥ 1)
    match lastResponse with
    | some r =>
      ⟨issued, .error (.httpError r.status ctx.url r.body r.headers),
        cache, [], false⟩
    | none => ⟨issued, .error .exhausted, cache, [], false⟩
  | attempt, remaining + 1, issued, lastResponse =>
    match transport attempt with
    | .exc =>
      -- lines 319–326: transport failure
      if attempt < ctx.maxRetries then
        reqGo ctx transport cachedEntry cache (attempt + 1) remaining
          (issued + 1) lastResponse
      else ⟨issued + 1, .error .transportError, cache, [], false⟩
    | .resp r =>
      -- lines 282–317: response classification
      let afterNotModified : ReqResult :=
        if r.status ∈ ctx.expected then
          if ctx.isGet && ctx.useCache && ctx.cacheEnabled then
            let etag := (headerGet r.headers "ETag").getD ""
            if etag ≠ "" then
              let entry : CacheEntry :=
                ⟨etag, ctx.url, r.status, r.headers, r.body, ctx.now⟩
              ⟨issued + 1, .ok ⟨ctx.url, r.status, r.headers, r.body⟩,
                cacheInsert cache ctx.key entry,
                [⟨ctx.key, entry, r.status⟩], false⟩
            else ⟨issued + 1, .ok ⟨ctx.url, r.status, r.headers, r.body⟩,
              cache, [], false⟩
          else ⟨issued + 1, .ok ⟨ctx.url, r.status, r.headers, r.body⟩,
            cache, [], false⟩
        else if shouldRetry r = true ∧ attempt < ctx.maxRetries then
          reqGo ctx transport cachedEntry cache (attempt + 1) remaining
            (issued + 1) (some r)
        else
          ⟨issued + 1, .error (.httpError r.status ctx.url r.body r.headers),
            cache, [], false⟩
      -- lines 274–280: `if response.status_code == 304 and cached_entry:`
      match cachedEntry with
      | some ce =>
        if r.status = 304 then
          ⟨issued + 1, .ok ⟨ctx.url, ce.statusCode, ce.headers, ce.bodyText⟩,
            cache, [], true⟩
        else afterNotModified
      | none => afterNotModified

/-- Embedding of `request()` (lines 220–335): the auth check of
lines 245–248 followed by the cached-entry lookup of lines 253–259 and
the retry loop. -/
def requestModel (hasToken : Bool) (authMode : AuthMode) (ctx : ReqCtx)
    (transport : ℕ → ReqOutcome) (cache : CacheMap) : ReqResult :=
  let run : ReqResult :=
    let cachedEntry :=
      if ctx.isGet && ctx.useCache && ctx.cacheEnabled then
        cacheGet cache ctx.key
      else none
    reqGo ctx transport cachedEntry cache 0 (ctx.maxRetries + 1) 0 none
  if authMode ≠ .noauth ∧ hasToken = true then
    -- Authorization header attached (carried by the transport oracle)
    run
  else if authMode = .required then
    ⟨0, .error .authError, cache, [], false⟩
  else run

/-! #### Characterization of one `request()` run -/

/-- The run touched neither the in-memory cache nor the cache file, and
if it answered from the 304/cache-hit branch it returned the cached
entry's data. -/
def WriteFree (ctx : ReqCtx) (cachedEntry : Option CacheEntry)
    (cache : CacheMap) (res : ReqResult) : Prop :=
  res.cache = cache ∧ res.writes = [] ∧
    (res.servedFromCache = true →
      ∃ ce, cachedEntry = some ce ∧
        res.outcome = .ok ⟨ctx.url, ce.statusCode, ce.headers, ce.bodyText⟩)

/-- The run returned an expected-status response of a cache-opted GET
carrying a non-empty ETag, and performed exactly the corresponding cache
write. -/
def WroteOk (ctx : ReqCtx) (cache : CacheMap) (res : ReqResult) : Prop :=
  ∃ r : HttpResponse,
    (ctx.isGet && ctx.useCache && ctx.cacheEnabled) = true ∧
    r.status ∈ ctx.expected ∧
    (headerGet r.headers "ETag").getD "" ≠ "" ∧
    res.outcome = .ok ⟨ctx.url, r.status, r.headers, r.body⟩ ∧
    res.cache = cacheInsert cache ctx.key
      ⟨(headerGet r.headers "ETag").getD "", ctx.url, r.status, r.headers,
        r.body, ctx.now⟩ ∧
    res.writes = [⟨ctx.key,
      ⟨(headerGet r.headers "ETag").getD "", ctx.url, r.status, r.headers,
        r.body, ctx.now⟩, r.status⟩] ∧
    res.servedFromCache = false

theorem reqGo_characterization (ctx : ReqCtx) (transport : ℕ → ReqOutcome)
    (cachedEntry : Option CacheEntry) (cache : CacheMap) :
    ∀ (remaining attempt issued : ℕ) (lastR : Option HttpResponse),
      WriteFree ctx cachedEntry cache
        (reqGo ctx transport cachedEntry cache attempt remaining issued lastR) ∨
      WroteOk ctx cache
        (reqGo ctx transport cachedEntry cache attempt remaining issued lastR) := by
  intro remaining
  induction remaining with
  | zero =>
    intro attempt issued lastR
    left
    cases lastR <;> simp [reqGo, WriteFree]
  | succ rem ih =>
    intro attempt issued lastR
    rw [reqGo]
    cases htr : transport attempt with
    | exc =>
      by_cases hlt : attempt < ctx.maxRetries
      · simpa [hlt] using ih (attempt + 1) (issued + 1) lastR
      · left; simp [hlt, WriteFree]
    | resp r =>
      have hafter :
          WriteFree ctx cachedEntry cache
            (if r.status ∈ ctx.expected then
              if ctx.isGet && ctx.useCache && ctx.cacheEnabled then
                if (headerGet r.headers "ETag").getD "" ≠ "" then
                  ⟨issued + 1, .ok ⟨ctx.url, r.status, r.headers, r.body⟩,
                    cacheInsert cache ctx.key
                      ⟨(headerGet r.headers "ETag").getD "", ctx.url,
                        r.status, r.headers, r.body, ctx.now⟩,
                    [⟨ctx.key,
                      ⟨(headerGet r.headers "ETag").getD "", ctx.url,
                        r.status, r.headers, r.body, ctx.now⟩, r.status⟩],
                    false⟩
                else ⟨issued + 1, .ok ⟨ctx.url, r.status, r.headers, r.body⟩,
                  cache, [], false⟩
              else ⟨issued + 1, .ok ⟨ctx.url, r.status, r.headers, r.body⟩,
                cache, [], false⟩
            else if shouldRetry r = true ∧ attempt < ctx.maxRetries then
              reqGo ctx transport cachedEntry cache (attempt + 1) rem
                (issued + 1) (some r)
            else
              ⟨issued + 1,
                .error (.httpError r.status ctx.url r.body r.headers),
                cache, [], false⟩) ∨
          WroteOk ctx cache
            (if r.status ∈ ctx.expected then
              if ctx.isGet && ctx.useCache && ctx.cacheEnabled then
                if (headerGet r.headers "ETag").getD "" ≠ "" then
                  ⟨issued + 1, .ok ⟨ctx.url, r.status, r.headers, r.body⟩,
                    cacheInsert cache ctx.key
                      ⟨(headerGet r.headers "ETag").getD "", ctx.url,
                        r.status, r.headers, r.body, ctx.now⟩,
                    [⟨ctx.key,
                      ⟨(headerGet r.headers "ETag").getD "", ctx.url,
                        r.status, r.headers, r.body, ctx.now⟩, r.status⟩],
                    false⟩
                else ⟨issued + 1, .ok ⟨ctx.url, r.status, r.headers, r.body⟩,
                  cache, [], false⟩
              else ⟨issued + 1, .ok ⟨ctx.url, r.status, r.headers, r.body⟩,
                cache, [], false⟩
            else if shouldRetry r = true ∧ attempt < ctx.maxRetries then
              reqGo ctx transport cachedEntry cache (attempt + 1) rem
                (issued + 1) (some r)
            else
              ⟨issued + 1,
                .error (.httpError r.status ctx.url r.body r.headers),
                cache, [], false⟩) := by
        by_cases hexp : r.status ∈ ctx.expected
        · by_cases hflag : (ctx.isGet && ctx.useCache && ctx.cacheEnabled) = true
          · by_cases hetag : (headerGet r.headers "ETag").getD "" ≠ ""
            · right
              refine ⟨r, hflag, hexp, hetag, ?_⟩
              simp [hexp, hflag, hetag]
            · left; simp [hexp, hflag, hetag, WriteFree]
          · left
            simp only [Bool.not_eq_true] at hflag
            simp [hexp, hflag, WriteFree]
        · by_cases hretry : shouldRetry r = true ∧ attempt < ctx.maxRetries
          · simpa [hexp, hretry] using ih (attempt + 1) (issued + 1) (some r)
          · left; simp [hexp, hretry, WriteFree]
      cases cachedEntry with
      | none => simpa using hafter
      | some ce =>
        by_cases h304 : r.status = 304
        · left
          refine ⟨by simp [h304], by simp [h304], ?_⟩
          intro _
          exact ⟨ce, rfl, by simp [h304]⟩
        · simpa [h304] using hafter

theorem requestModel_characterization (hasToken : Bool) (authMode : AuthMode)
    (ctx : ReqCtx) (transport : ℕ → ReqOutcome) (cache : CacheMap) :
    WriteFree ctx
      (if ctx.isGet && ctx.useCache && ctx.cacheEnabled then
        cacheGet cache ctx.key
      else none) cache
      (requestModel hasToken authMode ctx transport cache) ∨
    WroteOk ctx cache (requestModel hasToken authMode ctx transport cache) := by
  unfold requestModel
  by_cases h1 : authMode ≠ .noauth ∧ hasToken = true
  · simp only [if_pos h1]
    exact reqGo_characterization ctx transport _ cache _ 0 0 none
  · simp only [if_neg h1]
    by_cases h2 : authMode = .required
    · left
      simp [h2, WriteFree]
    · simp only [if_neg h2]
      exact reqGo_characterization ctx transport _ cache _ 0 0 none

/-- C6: in every execution of `request()`, every cache write comes from a
response whose status is in the expected set, on a GET with caching
requested and enabled, carrying a non-empty ETag; and a 304 answer tied
to a cache hit returns the cached body, status and headers directly with
no cache write. -/
theorem c6_cache_write_invariant (hasToken : Bool) (authMode : AuthMode)
    (ctx : ReqCtx) (transport : ℕ → ReqOutcome) (cache : CacheMap) :
    (∀ w ∈ (requestModel hasToken authMode ctx transport cache).writes,
      ctx.isGet = true ∧ ctx.useCache = true ∧ ctx.cacheEnabled = true ∧
        w.respStatus ∈ ctx.expected ∧ w.entry.etag ≠ "") ∧
    ((requestModel hasToken authMode ctx transport cache).servedFromCache = true →
      (requestModel hasToken authMode ctx transport cache).writes = [] ∧
      ∃ ce, cacheGet cache ctx.key = some ce ∧
        (requestModel hasToken authMode ctx transport cache).outcome =
          .ok ⟨ctx.url, ce.statusCode, ce.headers, ce.bodyText⟩) := by
  rcases requestModel_characterization hasToken authMode ctx transport cache with
    ⟨hc, hw, hs⟩ | ⟨r, hflag, hexp, hetag, hout, hcache, hwrites, hserved⟩
  · constructor
    · intro w hmem
      rw [hw] at hmem
      simp at hmem
    · intro hserved
      obtain ⟨ce, hce, hout⟩ := hs hserved
      refine ⟨hw, ce, ?_, hout⟩
      by_cases hflag : (ctx.isGet && ctx.useCache && ctx.cacheEnabled) = true
      · rw [if_pos hflag] at hce; exact hce
      · rw [if_neg hflag] at hce; cases hce
  · constructor
    · intro w hmem
      rw [hwrites] at hmem
      simp only [List.mem_singleton] at hmem
      subst hmem
      simp only [Bool.and_eq_true] at hflag
      exact ⟨hflag.1.1, hflag.1.2, hflag.2, hexp, hetag⟩
    · intro hserved'
      rw [hserved] at hserved'
      cases hserved'

/-- A successful cached GET scenario used as a concrete witness: status
200 with an ETag, caching on. -/
def okResponse : HttpResponse :=
  ⟨200, [("ETag", "W/\x22xyz\x22")], "[1]", .nonObj⟩

theorem c6_cache_write_invariant_witness :
    (requestModel true .auto
        ⟨"https://api.github.com/u", "k", true, true, true, [200], 6, 0⟩
        (fun _ => .resp okResponse) []).writes =
      [⟨"k", ⟨"W/\x22xyz\x22", "https://api.github.com/u", 200,
        [("ETag", "W/\x22xyz\x22")], "[1]", 0⟩, 200⟩] ∧
    ∀ w ∈ (requestModel true .auto
        ⟨"https://api.github.com/u", "k", true, true, true, [200], 6, 0⟩
        (fun _ => .resp okResponse) []).writes,
      w.respStatus ∈ [200] ∧ w.entry.etag ≠ "" := by
  constructor
  · rfl
  · intro w hmem
    have h := (c6_cache_write_invariant true .auto
      ⟨"https://api.github.com/u", "k", true, true, true, [200], 6, 0⟩
      (fun _ => .resp okResponse) []).1 w hmem
    exact ⟨h.2.2.2.1, h.2.2.2.2⟩

/-- C10: whenever `request()` raises (auth, HTTP or transport error),
the in-memory cache is unchanged and no cache write — hence no rewrite
of the on-disk cache file — happened. -/
theorem c10_no_cache_change_on_error (hasToken : Bool) (authMode : AuthMode)
    (ctx : ReqCtx) (transport : ℕ → ReqOutcome) (cache : CacheMap)
    (e : GhError)
    (herr : (requestModel hasToken authMode ctx transport cache).outcome =
      .error e) :
    (requestModel hasToken authMode ctx transport cache).cache = cache ∧
    (requestModel hasToken authMode ctx transport cache).writes = [] := by
  rcases requestModel_characterization hasToken authMode ctx transport cache with
    ⟨hc, hw, _⟩ | ⟨r, _, _, _, hout, _, _, _⟩
  · exact ⟨hc, hw⟩
  · rw [hout] at herr
    cases herr

/-- A 404 response used as a concrete error-path witness. -/
def notFoundResponse : HttpResponse :=
  ⟨404, [("X-GitHub-Request-Id", "1")], "not found", .malformed⟩

theorem c10_no_cache_change_on_error_witness :
    (requestModel true .auto
        ⟨"https://api.github.com/u", "k", true, true, true, [200], 6, 0⟩
        (fun _ => .resp notFoundResponse) [("k", sampleEntry)]).cache =
      [("k", sampleEntry)] ∧
    (requestModel true .auto
        ⟨"https://api.github.com/u", "k", true, true, true, [200], 6, 0⟩
        (fun _ => .resp notFoundResponse) [("k", sampleEntry)]).writes = [] :=
  c10_no_cache_change_on_error true .auto
    ⟨"https://api.github.com/u", "k", true, true, true, [200], 6, 0⟩
    (fun _ => .resp notFoundResponse) [("k", sampleEntry)]
    (.httpError 404 "https://api.github.com/u" "not found"
      [("X-GitHub-Request-Id", "1")]) rfl

/-! #### C5 — retry exhaustion on persistent 5xx -/

theorem reqGo_step_retryable (ctx : ReqCtx) (transport : ℕ → ReqOutcome)
    (cachedEntry : Option CacheEntry) (cache : CacheMap)
    (attempt rem issued : ℕ) (lastR : Option HttpResponse)
    (r : HttpResponse) (ht : transport attempt = .resp r)
    (hexp : r.status ∉ ctx.expected) (h304 : r.status ≠ 304)
    (hretry : shouldRetry r = true) :
    reqGo ctx transport cachedEntry cache attempt (rem + 1) issued lastR =
      if attempt < ctx.maxRetries then
        reqGo ctx transport cachedEntry cache (attempt + 1) rem (issued + 1)
          (some r)
      else
        ⟨issued + 1, .error (.httpError r.status ctx.url r.body r.headers),
          cache, [], false⟩ := by
  rw [reqGo, ht]
  cases cachedEntry with
  | none => simp [hexp, hretry, h304]
  | some ce => simp [hexp, hretry, h304]

theorem reqGo_all_retryable (ctx : ReqCtx) (resp : ℕ → HttpResponse)
    (cachedEntry : Option CacheEntry) (cache : CacheMap)
    (hexp : ∀ i, (resp i).status ∉ ctx.expected)
    (h304 : ∀ i, (resp i).status ≠ 304)
    (hretry : ∀ i, shouldRetry (resp i) = true) :
    ∀ (remaining attempt issued : ℕ) (lastR : Option HttpResponse),
      attempt + remaining = ctx.maxRetries + 1 → 1 ≤ remaining →
      reqGo ctx (fun i => .resp (resp i)) cachedEntry cache attempt remaining
          issued lastR =
        ⟨issued + remaining,
          .error (.httpError (resp ctx.maxRetries).status ctx.url
            (resp ctx.maxRetries).body (resp ctx.maxRetries).headers),
          cache, [], false⟩ := by
  intro remaining
  induction remaining with
  | zero => intro _ _ _ _ h; omega
  | succ rem ih =>
    intro attempt issued lastR hsum _
    rw [reqGo_step_retryable ctx _ cachedEntry cache attempt rem issued lastR
      (resp attempt) rfl (hexp attempt) (h304 attempt) (hretry attempt)]
    cases rem with
    | zero =>
      have hatt : attempt = ctx.maxRetries := by omega
      rw [if_neg (by omega)]
      subst hatt
      rfl
    | succ rem' =>
      have hlt : attempt < ctx.maxRetries := by omega
      have harith : issued + 1 + (rem' + 1) = issued + (rem' + 1 + 1) := by
        omega
      rw [if_pos hlt,
        ih (attempt + 1) (issued + 1) (some (resp attempt)) (by omega)
          (by omega), harith]

/-- C5: with max retries 6, if every attempt of a `request()` call gets a
status-500 response, exactly 7 HTTP requests are issued and the call
raises an HTTPError carrying status 500, the request URL, the last
response's body text and its headers (and the cache is untouched). -/
theorem c5_server_error_exhausts_retries (resp : ℕ → HttpResponse)
    (url key : String) (cache : CacheMap) (hasToken : Bool) (now : ℚ)
    (h500 : ∀ i, (resp i).status = 500) :
    requestModel hasToken .auto ⟨url, key, true, false, true, [200], 6, now⟩
        (fun i => .resp (resp i)) cache =
      ⟨7, .error (.httpError 500 url (resp 6).body (resp 6).headers),
        cache, [], false⟩ := by
  have hrun :
      reqGo ⟨url, key, true, false, true, [200], 6, now⟩
          (fun i => .resp (resp i)) none cache 0 7 0 none =
        ⟨7, .error (.httpError 500 url (resp 6).body (resp 6).headers),
          cache, [], false⟩ := by
    have h := reqGo_all_retryable ⟨url, key, true, false, true, [200], 6, now⟩
      resp none cache
      (fun i => by simp [h500 i])
      (fun i => by simp [h500 i])
      (fun i => by simp [shouldRetry, h500 i])
      7 0 0 none (by rfl) (by omega)
    simpa [h500 6] using h
  unfold requestModel
  by_cases h1 : AuthMode.auto ≠ AuthMode.noauth ∧ hasToken = true
  · simpa only [if_pos h1] using hrun
  · rw [if_neg h1, if_neg (by simp)]
    exact hrun

/-- A constant 500 response for the concrete C5 witness. -/
def serverErrorResponse : HttpResponse :=
  ⟨500, [("X-GitHub-Request-Id", "2")], "boom", .malformed⟩

theorem c5_server_error_exhausts_retries_witness :
    requestModel true .auto
        ⟨"https://api.github.com/u", "k", true, false, true, [200], 6, 0⟩
        (fun _ => .resp serverErrorResponse) [] =
      ⟨7, .error (.httpError 500 "https://api.github.com/u" "boom"
        [("X-GitHub-Request-Id", "2")]), [], [], false⟩ :=
  c5_server_error_exhausts_retries (fun _ => serverErrorResponse)
    "https://api.github.com/u" "k" [] true 0 (fun _ => rfl)

/-! ### URL building (github_api.py lines 159–170)

`_build_url` joins the path to the base URL and appends the
lexicographically sorted, percent-encoded query string
(`urlencode(sorted(params.items()))`). -/

/-- Uppercase hexadecimal digit. -/
def hexDigitChar (n : ℕ) : Char :=
  if n < 10 then Char.ofNat (48 + n) else Char.ofNat (55 + n)

/-- UTF-8 encoding of one character (for percent-encoding). -/
def utf8Bytes (c : Char) : List ℕ :=
  let n := c.toNat
  if n < 128 then [n]
  else if n < 2048 then [192 + n / 64, 128 + n % 64]
  else if n < 65536 then
    [224 + n / 4096, 128 + (n / 64) % 64, 128 + n % 64]
  else
    [240 + n / 262144, 128 + (n / 4096) % 64, 128 + (n / 64) % 64,
      128 + n % 64]

/-- The characters `urllib.parse.quote_plus` never encodes. -/
def isUrlSafe (c : Char) : Bool :=
  c.isAlpha || c.isDigit || c == '_' || c == '.' || c == '-' || c == '~'

/-- Embedding of `urllib.parse.quote_plus` on one character. -/
def quotePlusChar (c : Char) : List Char :=
  if isUrlSafe c then [c]
  else if c == ' ' then ['+']
  else (utf8Bytes c).flatMap
    (fun b => ['%', hexDigitChar (b / 16), hexDigitChar (b % 16)])

/-- Embedding of `urllib.parse.quote_plus`. -/
def quotePlus (s : String) : String :=
  String.mk (s.data.flatMap quotePlusChar)

/-- Join query fragments with `&`. -/
def joinAmp : List String → String
  | [] => ""
  | [s] => s
  | s :: rest => s ++ "&" ++ joinAmp rest

/-- Embedding of `urllib.parse.urlencode` on an already-sorted item list. -/
def urlencode (l : List (String × String)) : String :=
  joinAmp (l.map (fun p => quotePlus p.1 ++ "=" ++ quotePlus p.2))

/-- Lexicographic strict order on char lists (Python string `<`). -/
def charsLt : List Char → List Char → Bool
  | [], [] => false
  | [], _ :: _ => true
  | _ :: _, [] => false
  | a :: as, b :: bs =>
    if a.toNat < b.toNat then true
    else if b.toNat < a.toNat then false
    else charsLt as bs

/-- Python string `<`. -/
def strLt (s t : String) : Bool :=
  charsLt s.data t.data

/-- Stable insertion into a key-sorted parameter list. -/
def insertParamSorted (p : String × String) :
    List (String × String) → List (String × String)
  | [] => [p]
  | q :: rest =>
    if strLt p.1 q.1 then p :: q :: rest else q :: insertParamSorted p rest

/-- Python `sorted(params.items())`: insertion sort by key (dict keys are
unique, so the tuples' second components never decide the order). -/
def sortParams (l : List (String × String)) : List (String × String) :=
  l.foldr insertParamSorted []

/-- Python dict update `params[k] = v`: overwrite in place or append. -/
def paramsSet (l : List (String × String)) (k v : String) :
    List (String × String) :=
  if l.any (fun p => p.1 == k) then
    l.map (fun p => if p.1 == k then (k, v) else p)
  else l ++ [(k, v)]

/-- Python `path.startswith(pre)`. -/
def strBeginsWith (s pre : String) : Bool :=
  charsBeginWith pre.data s.data

/-- Python `path.lstrip("/")`. -/
def lstripSlashes (s : String) : String :=
  String.mk (s.data.dropWhile (fun c => c == '/'))

/-- Embedding of `GitHubClient._build_url` (lines 159–170).  `baseUrl`
stands for `self.base_url`, already `.rstrip("/")`-ed at construction
(line 87). -/
def buildUrl (baseUrl path : String) (params : List (String × String)) :
    String :=
  let url :=
    if strBeginsWith path "http://" || strBeginsWith path "https://" then path
    else baseUrl ++ "/" ++ lstripSlashes path
  if params ≠ [] then url ++ "?" ++ urlencode (sortParams params) else url

/-- Python `str(n)` for a natural number (the `per_page` value), via a
fuel-bounded digit expansion. -/
def natToCharsAux : ℕ → ℕ → List Char
  | 0, _ => []
  | fuel + 1, n =>
    if n < 10 then [Char.ofNat (48 + n)]
    else natToCharsAux fuel (n / 10) ++ [Char.ofNat (48 + n % 10)]

/-- Python `str(n)` for a natural number. -/
def pyStrOfNat (n : ℕ) : String :=
  String.mk (natToCharsAux (n + 1) n)

/-! ### `_parse_next_link` (github_api.py lines 421–431)

The regex `\s*<([^>]+)>\s*;\s*rel="next"` applied with `re.match` (anchored
at the start, trailing text allowed) to each `","`-separated, stripped part
of the `Link` header. -/

/-- Scan up to the first `>`: the regex fragment `([^>]+)>` (the capture
must be non-empty, checked by the caller). -/
def takeUntilGt : List Char → Option (List Char × List Char)
  | [] => none
  | c :: rest =>
    if c == '>' then some ([], rest)
    else (takeUntilGt rest).map (fun p => (c :: p.1, p.2))

/-- Embedding of `re.match(r'\s*<([^>]+)>\s*;\s*rel="next"', part.strip())`,
returning the capture. -/
def matchNextRel (part : String) : Option String :=
  match dropPySpace (pyStrip part).data with
  | '<' :: rest =>
    match takeUntilGt rest with
    | some (cap, rest2) =>
      if cap ≠ [] then
        match dropPySpace rest2 with
        | ';' :: rest4 =>
          if charsBeginWith "rel=\x22next\x22".data (dropPySpace rest4) then
            some (String.mk cap)
          else none
        | _ => none
      else none
    | none => none
  | _ => none

/-- Embedding of `GitHubClient._parse_next_link` (lines 421–431). -/
def parseNextLink (linkHeader : String) : Option String :=
  if linkHeader = "" then none
  else
    (splitOnChar ',' linkHeader.data).findSome?
      (fun part => matchNextRel (String.mk part))

/-! ### `paginate` (github_api.py lines 381–419)

The per-page `response.json()` is modelled as an already-parsed JSON
value; the loop, which can in principle follow links forever, is embedded
with an explicit fuel bound — the third result component is `true` when
the loop exited by itself (no next link, or page cap reached) within the
fuel. -/

/-- A parsed response body, as far as `paginate` inspects it. -/
inductive PgJson where
  | arr (items : List PgJson)
  | obj (fields : List (String × PgJson))
  | atom (s : String)

/-- One page response: parsed body plus headers. -/
structure PageResp where
  body : PgJson
  headers : Headers

/-- Lines 412–417: which items a page contributes — every element of a
list body; the `item_key` sub-list of an object body (missing or
non-list key contributes nothing); nothing otherwise. -/
def pageItems (itemKey : Option String) : PgJson → List PgJson
  | .arr items => items
  | .obj fields =>
    match itemKey with
    | some k =>
      match fields.find? (fun p => p.1 == k) with
      | some (_, PgJson.arr items) => items
      | some _ => []
      | none => []
    | none => []
  | .atom _ => []

/-- One request `paginate` issues: the URL and the `use_cache` flag it
passes to `request` (line 405 passes `use_cache=False` literally). -/
structure PageRequest where
  url : String
  useCache : Bool
deriving DecidableEq

/-- Embedding of `self._parse_next_link(response.headers.get("Link", ""))`
(line 419). -/
def nextUrlOf (resp : PageResp) : Option String :=
  parseNextLink ((headerGet resp.headers "Link").getD "")

/-- The `while url:` loop of `paginate` (lines 398–419), returning the
requests issued, the items yielded in order, and whether the loop
finished within the fuel. -/
def paginateGo (server : String → PageResp) (itemKey : Option String)
    (limitPages : Option ℕ) :
    Option String → ℕ → ℕ → List PageRequest × List PgJson × Bool
  | none, _, _ => ([], [], true)
  | some _, _, 0 => ([], [], false)
  | some url, pagesFetched, fuel + 1 =>
    let fetch : List PageRequest × List PgJson × Bool :=
      let resp := server url
      let tail :=
        paginateGo server itemKey limitPages (nextUrlOf resp)
          (pagesFetched + 1) fuel
      (⟨url, false⟩ :: tail.1, pageItems itemKey resp.body ++ tail.2.1,
        tail.2.2)
    match limitPages with
    | some lp => if lp ≤ pagesFetched then ([], [], true) else fetch
    | none => fetch

/-- Embedding of `GitHubClient.paginate` (lines 381–419): set
`params["per_page"]`, build the first URL, run the loop. -/
def paginate (server : String → PageResp) (baseUrl path : String)
    (params : List (String × String)) (itemKey : Option String)
    (perPage : ℕ) (limitPages : Option ℕ) (fuel : ℕ) :
    List PageRequest × List PgJson × Bool :=
  paginateGo server itemKey limitPages
    (some (buildUrl baseUrl path
      (paramsSet params "per_page" (pyStrOfNat perPage)))) 0 fuel

theorem paginateGo_chain (server : String → PageResp)
    (itemKey : Option String) :
    ∀ (rest : List String) (u : String) (pagesFetched : ℕ),
      List.Chain' (fun a b => nextUrlOf (server a) = some b) (u :: rest) →
      nextUrlOf (server ((u :: rest).getLast (by simp))) = none →
      paginateGo server itemKey none (some u) pagesFetched
          (rest.length + 1) =
        ((u :: rest).map (fun v => ⟨v, false⟩),
          (u :: rest).flatMap (fun v => pageItems itemKey (server v).body),
          true) := by
  intro rest
  induction rest with
  | nil =>
    intro u pagesFetched _ hlast
    simp only [List.getLast_singleton] at hlast
    simp [paginateGo, hlast]
  | cons v rest' ih =>
    intro u pagesFetched hchain hlast
    rw [List.chain'_cons] at hchain
    have hnext : nextUrlOf (server u) = some v := hchain.1
    have hlast' :
        nextUrlOf (server ((v :: rest').getLast (by simp))) = none := by
      rw [List.getLast_cons (by simp)] at hlast
      exact hlast
    have htail := ih v (pagesFetched + 1) hchain.2 hlast'
    simp only [List.length_cons, paginateGo, hnext, htail]
    simp

/-- C8: over a server whose pages are linked by `Link: rel="next"`
headers, with only the final page lacking a next link, `paginate` with
fuel equal to the page count issues exactly one request per page, in
page order, each with caching disabled, follows each server-provided
next-link URL verbatim from page 2 on, terminates by itself, and yields
every page's items in page order. -/
theorem c8_pagination (server : String → PageResp) (baseUrl path : String)
    (params : List (String × String)) (itemKey : Option String)
    (perPage : ℕ) (u0 : String) (rest : List String)
    (hu0 : u0 = buildUrl baseUrl path
      (paramsSet params "per_page" (pyStrOfNat perPage)))
    (hchain : List.Chain' (fun a b => nextUrlOf (server a) = some b)
      (u0 :: rest))
    (hlast : nextUrlOf (server ((u0 :: rest).getLast (by simp))) = none) :
    paginate server baseUrl path params itemKey perPage none
        (rest.length + 1) =
      ((u0 :: rest).map (fun v => ⟨v, false⟩),
        (u0 :: rest).flatMap (fun v => pageItems itemKey (server v).body),
        true) := by
  unfold paginate
  rw [← hu0]
  exact paginateGo_chain server itemKey rest u0 0 hchain hlast

/-- Three concrete pages for the C8 witness: the first two carry a
`rel="next"` link, the third does not. -/
def c8page1 : PageResp :=
  ⟨.arr [.atom "i1", .atom "i2"],
    [("Link", "<https://api.github.com/r?page=2>; rel=\x22next\x22, <https://api.github.com/r?page=3>; rel=\x22last\x22")]⟩

def c8page2 : PageResp :=
  ⟨.arr [.atom "i3"],
    [("Link", "<https://api.github.com/r?page=3>; rel=\x22next\x22")]⟩

def c8page3 : PageResp :=
  ⟨.arr [.atom "i4"],
    [("Link", "<https://api.github.com/r?page=1>; rel=\x22first\x22")]⟩

def c8Server : String → PageResp := fun u =>
  if u = "https://api.github.com/repos/o/r/issues?per_page=100" then c8page1
  else if u = "https://api.github.com/r?page=2" then c8page2
  else if u = "https://api.github.com/r?page=3" then c8page3
  else ⟨.atom "", []⟩

theorem c8_pagination_witness :
    paginate c8Server "https://api.github.com" "repos/o/r/issues" [] none
        100 none 3 =
      ([⟨"https://api.github.com/repos/o/r/issues?per_page=100", false⟩,
        ⟨"https://api.github.com/r?page=2", false⟩,
        ⟨"https://api.github.com/r?page=3", false⟩],
        [.atom "i1", .atom "i2", .atom "i3", .atom "i4"], true) := by
  have h := c8_pagination c8Server "https://api.github.com" "repos/o/r/issues"
    [] none 100 "https://api.github.com/repos/o/r/issues?per_page=100"
    ["https://api.github.com/r?page=2", "https://api.github.com/r?page=3"]
    (by decide)
    (by
      simp only [List.chain'_cons, List.chain'_singleton, and_true]
      exact ⟨by decide, by decide⟩)
    (by decide)
  exact h.trans (by rfl)

end Defib
